import Mathlib

/-!
Shallow embedding of the golog package: a structured logging library (Level,
Logger with field chaining) together with an HTTP request/response logging
middleware (context accessors, response recorder, request body handling and a
deferred response-logging step).

Modelling conventions, used throughout:
* Go maps with string keys become association lists without duplicate keys;
  assignment is modelled by `setField`, which replaces an existing entry or
  appends a fresh one, exactly the observable behaviour of a Go map write.
* A Go run-time panic (array index out of range, failed type assertion) is
  modelled by `Option`/`Except`: `none` or `Except.error ()` marks the panic.
* Go maps are reference values: `Logger.WithFields` writes into the map the
  caller passed in.  The embedding `withFieldsCall` therefore returns, next
  to the new logger, the post-call contents of that argument map, the
  post-call contents of the receiver's own field map (unchanged, because the
  underlying logrus `WithFields` copies the entry data into a fresh map) and
  the list of log entries the call wrote to the sink (empty: the body of
  `WithFields` performs no write).
-/

/-- Go values stored in a field map (Go type: the empty interface).  The
constructors cover the value shapes this development needs; `formatPlusV`
renders each the way the fmt package's plus-v verb does. -/
inductive GoValue where
  | str (s : String)
  | int (n : Int)
  | err (msg : String)
  | null
  deriving DecidableEq, Repr

/-- Rendering of a value by the fmt package's plus-v verb: a string renders
as itself, an integer in decimal, a plain error as its message, a nil
interface as the angle-bracketed nil marker. -/
def formatPlusV : GoValue → String
  | GoValue.str s => s
  | GoValue.int n => toString n
  | GoValue.err msg => msg
  | GoValue.null => "<nil>"

/-- A Go map with string keys: association list whose keys are pairwise
distinct in every map actually produced by the code. -/
abbrev FieldMap := List (String × GoValue)

/-- Go map read: the value stored at a key, if any. -/
def lookupField : FieldMap → String → Option GoValue
  | [], _ => none
  | (k, v) :: rest, key => if k = key then some v else lookupField rest key

/-- Go map write: replace the entry holding the key, or append a fresh one. -/
def setField : FieldMap → String → GoValue → FieldMap
  | [], k, v => [(k, v)]
  | (k0, v0) :: rest, k, v =>
      if k0 = k then (k, v) :: rest else (k0, v0) :: setField rest k v

/-- Keys of a field map, in storage order. -/
def fieldKeys (m : FieldMap) : List String := m.map Prod.fst

/-- Merge used by logrus `Entry.WithFields`: start from a copy of the base
map and write every entry of the second map into it, so the second map wins
on shared keys. -/
def mergeFields (base m : FieldMap) : FieldMap :=
  m.foldl (fun acc kv => setField acc kv.1 kv.2) base

/-- First defined of two optional values, the lookup of a layered map. -/
def firstSome (a b : Option GoValue) : Option GoValue :=
  match a with
  | some v => some v
  | none => b

/-- Go source: type Level int, with DEBUG, INFO, WARN, ERROR declared by iota. -/
abbrev Level := Int

/-- Level constant DEBUG (iota value 0). -/
def DEBUG : Level := 0

/-- Level constant INFO (iota value 1). -/
def INFO : Level := 1

/-- Level constant WARN (iota value 2). -/
def WARN : Level := 2

/-- Level constant ERROR (iota value 3). -/
def ERROR : Level := 3

/-- Embeds the Go method String of Level: index into the four-element array
of names.  Go declares Level as an integer type, so the receiver can lie
outside the four declared constants; an out-of-range index panics at run
time, modelled here by `none`. -/
def levelString (l : Level) : Option String :=
  if 0 ≤ l then ["debug", "info", "warning", "error"].get? l.toNat else none

/-- The package-level lookup table consumed by GetLevel.  Note its key for
WARN is the four-letter name, while `levelString` renders WARN with the
longer name. -/
def lookupMap : List (String × Level) :=
  [("debug", DEBUG), ("info", INFO), ("warn", WARN), ("error", ERROR)]

/-- Embeds GetLevel: a Go map read whose miss produces the zero value of
Level, which is DEBUG. -/
def GetLevel (s : String) : Level :=
  (List.lookup s lookupMap).getD DEBUG

/-- Field key constant for the tag field. -/
def TagKey : String := "tag"

/-- Field key constant whose presence triggers stack-trace synthesis. -/
def ErrorKey : String := "error"

/-- Field key constant for the synthesized stack trace field. -/
def StacktraceKey : String := "stack_trace"

/-- Destination a logger writes to (Go: an io.Writer). -/
inductive GoWriter where
  | stdout
  | other (n : Nat)
  deriving DecidableEq, Repr

/-- Embeds the Logger struct: the wrapped logrus entry carries the minimum
emission level, the output writer and the accumulated field data. -/
structure Logger where
  level : Level
  out : GoWriter
  fields : FieldMap
  deriving DecidableEq, Repr

/-- Embeds New: a logger at the given level and writer with no fields. -/
def New (l : Level) (o : GoWriter) : Logger :=
  { level := l, out := o, fields := [] }

/-- One structured entry written to the sink. -/
structure LogEntry where
  level : Level
  message : String
  fields : FieldMap
  deriving DecidableEq, Repr

/-- The mutation step at the top of WithFields: when the argument map holds
the error key, write the rendered error under the stack-trace key into that
same map. -/
def enrichErrorField (fields : FieldMap) : FieldMap :=
  match lookupField fields ErrorKey with
  | some v => setField fields StacktraceKey (GoValue.str (formatPlusV v))
  | none => fields

/-- Everything observable about one call to WithFields. -/
structure WithFieldsResult where
  result : Logger
  argAfter : FieldMap
  receiverFieldsAfter : FieldMap
  emitted : List LogEntry

/-- Embeds Logger.WithFields.  The body first writes the stack-trace entry
into the argument map when that map holds the error key (Go maps are
references, so the caller's map is changed in place: `argAfter`), then asks
logrus for a derived entry; logrus copies the receiver's data into a fresh
map and merges the argument over it, leaving the receiver untouched
(`receiverFieldsAfter`).  No write to the sink occurs (`emitted`). -/
def withFieldsCall (l : Logger) (fields : FieldMap) : WithFieldsResult :=
  let enriched := enrichErrorField fields
  { result := { l with fields := mergeFields l.fields enriched }
    argAfter := enriched
    receiverFieldsAfter := l.fields
    emitted := [] }

/-- The logger a call to WithFields returns. -/
def Logger.WithFields (l : Logger) (fields : FieldMap) : Logger :=
  (withFieldsCall l fields).result

/-- Context key constant under which the request identifier is bound. -/
def ContextKeyRequestID : String := "requestId"

/-- Context key constant under which the logger is bound. -/
def ContextKeyLogger : String := "logger"

/-- A value bound in a request context (Go: the empty interface).  The
accessor functions type-assert on it; `other` stands for any value that is
neither a string nor a Logger. -/
inductive CtxVal where
  | str (s : String)
  | logger (l : Logger)
  | other
  deriving DecidableEq, Repr

/-- A Go context: layered key/value bindings, the innermost derivation
first, exactly the order context value lookup walks. -/
abbrev GoContext := List (String × CtxVal)

/-- Context value lookup: first binding for the key wins (child shadows
ancestor). -/
def ctxValue : GoContext → String → Option CtxVal
  | [], _ => none
  | (k, v) :: rest, key => if k = key then some v else ctxValue rest key

/-- Embeds GetRequestID: a nil lookup yields the Unknown sentinel; a bound
value is type-asserted to string, and the assertion panics
(`Except.error ()`) when the binding is not a string. -/
def GetRequestID (ctx : GoContext) : Except Unit String :=
  match ctxValue ctx ContextKeyRequestID with
  | none => Except.ok "Unknown"
  | some (CtxVal.str s) => Except.ok s
  | some _ => Except.error ()

/-- Embeds WithLogger: derive a child context binding the logger. -/
def WithLogger (ctx : GoContext) (l : Logger) : GoContext :=
  (ContextKeyLogger, CtxVal.logger l) :: ctx

/-- Embeds GetLogger: a nil lookup yields a fresh default logger at INFO on
standard output; a bound value is type-asserted to Logger, and the assertion
panics (`Except.error ()`) when the binding is not a Logger. -/
def GetLogger (ctx : GoContext) : Except Unit Logger :=
  match ctxValue ctx ContextKeyLogger with
  | none => Except.ok (New INFO GoWriter.stdout)
  | some (CtxVal.logger l) => Except.ok l
  | some _ => Except.error ()

/-- Capture state of the ResponseWriterRecorder struct: captured status,
captured body bytes (nil until the first write) and the header-committed
flag.  Every call also forwards to the wrapped response writer; the claims
under proof concern the capture state, which this struct embeds in full. -/
structure ResponseWriterRecorder where
  status : Int
  body : Option (List Nat)
  isStatusSet : Bool
  deriving DecidableEq, Repr

/-- Embeds NewResponseWriterRecorder: status two hundred, nil body, flag
down. -/
def NewResponseWriterRecorder : ResponseWriterRecorder :=
  { status := 200, body := none, isStatusSet := false }

/-- Embeds WriteHeader: forward, record the code, raise the flag. -/
def ResponseWriterRecorder.WriteHeader (r : ResponseWriterRecorder)
    (statusCode : Int) : ResponseWriterRecorder :=
  { r with status := statusCode, isStatusSet := true }

/-- Embeds Write: when no status was committed yet, first perform
WriteHeader with the OK status; then record the payload as the captured
body, replacing whatever was captured before, and forward the bytes. -/
def ResponseWriterRecorder.Write (r : ResponseWriterRecorder)
    (b : List Nat) : ResponseWriterRecorder :=
  let r1 := if r.isStatusSet then r else r.WriteHeader 200
  { r1 with body := some b }

/-- One call a handler can make on the recorder. -/
inductive RecOp where
  | writeHeader (code : Int)
  | write (b : List Nat)
  deriving DecidableEq, Repr

/-- Apply one recorder call. -/
def recStep (r : ResponseWriterRecorder) : RecOp → ResponseWriterRecorder
  | RecOp.writeHeader code => r.WriteHeader code
  | RecOp.write b => r.Write b

/-- Run a call sequence against a recorder. -/
def runOps (r : ResponseWriterRecorder) (ops : List RecOp) :
    ResponseWriterRecorder :=
  ops.foldl recStep r

/-- Whether a recorder call is a body write. -/
def RecOp.isWrite : RecOp → Bool
  | RecOp.write _ => true
  | RecOp.writeHeader _ => false

/-- Whether a call sequence contains no WriteHeader call. -/
def allWrites (ops : List RecOp) : Bool :=
  ops.all RecOp.isWrite

/-- Observable steps of the middleware handler relevant to response
logging. -/
inductive Ev where
  | logRequest
  | addHeader
  | serve
  | logResponse
  deriving DecidableEq, BEq, Repr

/-- Statements of the middleware handler body, as the defer interpreter
sees them: plain step, registration of a deferred step, and the call into
the downstream handler. -/
inductive MwStmt where
  | emit (e : Ev)
  | deferEmit (e : Ev)
  | callHandler
  deriving DecidableEq, Repr

/-- Interpreter for a function body with Go defer semantics.  Statements
run in order while the deferred stack accumulates; when the downstream
handler panics, the remaining statements are skipped and the deferred
steps run during unwinding; when the body ends normally, the deferred
steps run as well.  Deferred steps run most-recent first. -/
def runDefer (handlerPanics : Bool) (deferred : List Ev) :
    List MwStmt → List Ev
  | [] => deferred
  | MwStmt.emit e :: rest => e :: runDefer handlerPanics deferred rest
  | MwStmt.deferEmit e :: rest => runDefer handlerPanics (e :: deferred) rest
  | MwStmt.callHandler :: rest =>
      Ev.serve ::
        (if handlerPanics then deferred else runDefer handlerPanics deferred rest)

/-- Statement sequence of the handler returned by NewMiddlewareWithOptions,
in source order: log the request, register the deferred response-logging
step only when the option is on, add the request identifier header, call
the downstream handler. -/
def middlewareStmts (logResponseOpt : Bool) : List MwStmt :=
  [MwStmt.emit Ev.logRequest]
    ++ (if logResponseOpt then [MwStmt.deferEmit Ev.logResponse] else [])
    ++ [MwStmt.emit Ev.addHeader, MwStmt.callHandler]

/-- Trace of one request through the middleware, given the option value and
whether the downstream handler panics. -/
def middlewareTrace (logResponseOpt handlerPanics : Bool) : List Ev :=
  runDefer handlerPanics [] (middlewareStmts logResponseOpt)

/-- Index of the first occurrence of an event in a trace. -/
def firstIdx (l : List Ev) (e : Ev) : Nat :=
  l.findIdx (fun x => x == e)

/-- State of a request body stream: the no-body sentinel, a healthy stream
over the listed bytes, or a stream whose read fails. -/
inductive GoBody where
  | noBody
  | stream (data : List Nat)
  | broken
  deriving DecidableEq, Repr

/-- Reading a body stream to its end: a healthy stream yields its bytes and
is left exhausted; a broken stream yields a read error. -/
def readAll : GoBody → Except Unit (List Nat) × GoBody
  | GoBody.noBody => (Except.ok [], GoBody.noBody)
  | GoBody.stream d => (Except.ok d, GoBody.stream [])
  | GoBody.broken => (Except.error (), GoBody.broken)

/-- Body handling of logRequest: when a body is present, read it fully;
on success replace the request body with a fresh buffer over the same
bytes and log those bytes (the structured decode then runs on a separate
copy and never touches the request body); on a read error only a
body-error field is logged and the body is left as the read left it.
Returns the request body after the call and the bytes captured for
logging. -/
def logRequestCapture (b : GoBody) : GoBody × Option (List Nat) :=
  if b = GoBody.noBody then (b, none)
  else
    match readAll b with
    | (Except.error _, after) => (after, none)
    | (Except.ok buf, _) => (GoBody.stream buf, some buf)

/-- A Go pointer value: nil or the address of some live object. -/
inductive GoPtr where
  | null
  | addr (n : Nat)
  deriving DecidableEq, Repr

/-- Taking the address of an addressable local variable or parameter: in Go
this always yields the address of the live slot, never the nil pointer. -/
def addrOf (slot : Nat) : GoPtr :=
  GoPtr.addr slot

/-- Embeds the MiddlewareOptions struct. -/
structure MiddlewareOptions where
  LogResponse : Bool
  deriving DecidableEq, Repr

/-- The logger NewMiddlewareWithOptions ends up using, together with a flag
telling whether the default-logger fallback branch ran.  The source guards
the fallback on comparing the address of the logger parameter with nil. -/
def NewMiddlewareWithOptionsChoice (logger : Logger)
    (options : MiddlewareOptions) : Logger × Bool :=
  if addrOf 0 = GoPtr.null then (New INFO GoWriter.stdout, true)
  else (logger, false)

theorem lookupField_setField (m : FieldMap) (k : String) (v : GoValue)
    (key : String) :
    lookupField (setField m k v) key
      = if key = k then some v else lookupField m key := by
  induction m with
  | nil =>
      by_cases h : key = k
      · subst h; simp [setField, lookupField]
      · simp [setField, lookupField, h, Ne.symm h]
  | cons hd tl ih =>
      obtain ⟨k0, v0⟩ := hd
      by_cases h0 : k0 = k
      · subst h0
        by_cases h : key = k0
        · subst h; simp [setField, lookupField]
        · simp [setField, lookupField, h, Ne.symm h]
      · by_cases h1 : k0 = key
        · subst h1
          simp [setField, lookupField, h0, Ne.symm h0]
        · by_cases h : key = k
          · subst h
            simp [setField, lookupField, h0, h1, ih]
          · simp [setField, lookupField, h0, h1, h, ih]

theorem lookupField_eq_none (m : FieldMap) (key : String)
    (h : key ∉ fieldKeys m) : lookupField m key = none := by
  induction m with
  | nil => rfl
  | cons hd tl ih =>
      obtain ⟨k0, v0⟩ := hd
      simp only [fieldKeys, List.map_cons, List.mem_cons] at h
      push_neg at h
      rw [lookupField, if_neg (fun hh => h.1 hh.symm)]
      exact ih h.2

theorem fieldKeys_setField (m : FieldMap) (k : String) (v : GoValue) :
    fieldKeys (setField m k v)
      = if k ∈ fieldKeys m then fieldKeys m else fieldKeys m ++ [k] := by
  induction m with
  | nil => simp [setField, fieldKeys]
  | cons hd tl ih =>
      obtain ⟨k0, v0⟩ := hd
      by_cases h0 : k0 = k
      · subst h0
        have hmem : k0 ∈ fieldKeys ((k0, v0) :: tl) := by simp [fieldKeys]
        rw [if_pos hmem]
        simp [setField, fieldKeys]
      · have hkeys : fieldKeys ((k0, v0) :: tl) = k0 :: fieldKeys tl := rfl
        have hcons : fieldKeys ((k0, v0) :: setField tl k v)
            = k0 :: fieldKeys (setField tl k v) := rfl
        simp only [setField, if_neg h0]
        rw [hkeys, hcons, ih]
        by_cases hm : k ∈ fieldKeys tl
        · rw [if_pos hm, if_pos (by simp [List.mem_cons, hm])]
        · rw [if_neg hm, if_neg ?_]
          · rfl
          · simp only [List.mem_cons]
            push_neg
            exact ⟨fun hh => h0 hh.symm, hm⟩

theorem nodup_setField (m : FieldMap) (k : String) (v : GoValue)
    (h : (fieldKeys m).Nodup) : (fieldKeys (setField m k v)).Nodup := by
  rw [fieldKeys_setField]
  by_cases hm : k ∈ fieldKeys m
  · rw [if_pos hm]; exact h
  · rw [if_neg hm]
    simp only [List.nodup_append, List.nodup_cons, List.not_mem_nil,
      not_false_iff, List.nodup_nil, and_true, true_and]
    constructor
    · exact h
    · intro a ha
      simp only [List.mem_singleton]
      intro hak
      exact hm (hak ▸ ha)

theorem nodup_enrichErrorField (f : FieldMap)
    (h : (fieldKeys f).Nodup) : (fieldKeys (enrichErrorField f)).Nodup := by
  cases hE : lookupField f ErrorKey with
  | none => simpa [enrichErrorField, hE] using h
  | some v =>
      rw [enrichErrorField, hE]
      exact nodup_setField _ _ _ h

theorem mergeFields_cons (m1 : FieldMap) (k0 : String) (v0 : GoValue)
    (tl : FieldMap) :
    mergeFields m1 ((k0, v0) :: tl) = mergeFields (setField m1 k0 v0) tl :=
  rfl

theorem lookupField_mergeFields (m2 : FieldMap)
    (h : (fieldKeys m2).Nodup) (m1 : FieldMap) (key : String) :
    lookupField (mergeFields m1 m2) key
      = firstSome (lookupField m2 key) (lookupField m1 key) := by
  induction m2 generalizing m1 with
  | nil => simp [mergeFields, lookupField, firstSome]
  | cons hd tl ih =>
      obtain ⟨k0, v0⟩ := hd
      have hnot : k0 ∉ fieldKeys tl := by
        have := h
        simp only [fieldKeys, List.map_cons, List.nodup_cons] at this
        exact this.1
      have htl : (fieldKeys tl).Nodup := by
        have := h
        simp only [fieldKeys, List.map_cons, List.nodup_cons] at this
        exact this.2
      rw [mergeFields_cons, ih htl]
      simp only [lookupField]
      by_cases hk : k0 = key
      · subst hk
        rw [if_pos rfl, lookupField_eq_none tl k0 hnot,
          lookupField_setField, if_pos rfl]
        simp [firstSome]
      · rw [if_neg hk, lookupField_setField,
          if_neg (fun hh => hk hh.symm)]

theorem setField_length_of_none (m : FieldMap) (k : String) (v : GoValue)
    (h : lookupField m k = none) :
    (setField m k v).length = m.length + 1 := by
  induction m with
  | nil => rfl
  | cons hd tl ih =>
      obtain ⟨k0, v0⟩ := hd
      rw [lookupField] at h
      by_cases h0 : k0 = k
      · rw [if_pos h0] at h; exact absurd h (by simp)
      · rw [if_neg h0] at h
        rw [setField, if_neg h0]
        simp only [List.length_cons, ih h]

theorem withFields_fields (l : Logger) (f : FieldMap) :
    (l.WithFields f).fields = mergeFields l.fields (enrichErrorField f) :=
  rfl

theorem runOps_append (r : ResponseWriterRecorder) (l1 l2 : List RecOp) :
    runOps r (l1 ++ l2) = runOps (runOps r l1) l2 := by
  simp [runOps, List.foldl_append]

theorem write_status (r : ResponseWriterRecorder) (b : List Nat) :
    (r.Write b).status = if r.isStatusSet then r.status else 200 := by
  cases hs : r.isStatusSet <;>
    simp [ResponseWriterRecorder.Write, ResponseWriterRecorder.WriteHeader,
      hs]

theorem write_body (r : ResponseWriterRecorder) (b : List Nat) :
    (r.Write b).body = some b := by
  cases hs : r.isStatusSet <;>
    simp [ResponseWriterRecorder.Write, ResponseWriterRecorder.WriteHeader,
      hs]

theorem status_after_writes (ops : List RecOp) (h : allWrites ops = true) :
    ∀ r : ResponseWriterRecorder, r.status = 200 →
      (runOps r ops).status = 200 := by
  induction ops with
  | nil => intro r h200; exact h200
  | cons op tl ih =>
      intro r h200
      cases op with
      | writeHeader c =>
          simp [allWrites, RecOp.isWrite] at h
      | write b =>
          have htl : allWrites tl = true := by
            simpa [allWrites, RecOp.isWrite] using h
          have hstep : runOps r (RecOp.write b :: tl)
              = runOps (r.Write b) tl := rfl
          rw [hstep]
          refine ih htl _ ?_
          rw [write_status]
          cases hs : r.isStatusSet
          · simp
          · simp [h200]

/-- C7 counterexample.  The claimed roundtrip fails at WARN: its name is
the longer string, which GetLevel does not recognize and therefore maps to
DEBUG, not back to WARN. -/
theorem level_roundtrip_counterexample :
    levelString WARN = some "warning" ∧ GetLevel "warning" ≠ WARN := by
  constructor
  · rfl
  · decide

/-- C7 (amended).  The Level-to-name roundtrip GetLevel applied to the name
of a level is the identity for DEBUG, INFO and ERROR; WARN's name is the
longer string, which GetLevel maps to DEBUG, while GetLevel still maps the
four-letter name to WARN. -/
theorem level_roundtrip_amended :
    levelString DEBUG = some "debug" ∧ GetLevel "debug" = DEBUG
    ∧ levelString INFO = some "info" ∧ GetLevel "info" = INFO
    ∧ levelString ERROR = some "error" ∧ GetLevel "error" = ERROR
    ∧ levelString WARN = some "warning" ∧ GetLevel "warning" = DEBUG
    ∧ GetLevel "warn" = WARN := by
  decide

/-- C8 counterexample.  Level is an integer type in the source, and the
name lookup indexes a four-element array, so a receiver outside the four
declared constants panics (modelled by the name being `none`): the name
function is not total on the Level type. -/
theorem level_total_counterexample :
    levelString 4 = none ∧ levelString (-1) = none := by
  decide

/-- C8 (amended).  The name function is total on the four declared levels
(it panics outside them), and GetLevel is total on all strings, mapping
every name missing from its lookup table to the zero-ordinal level
DEBUG. -/
theorem level_total_amended :
    (∀ l : Level, l = DEBUG ∨ l = INFO ∨ l = WARN ∨ l = ERROR →
      (levelString l).isSome = true)
    ∧ (∀ s : String, List.lookup s lookupMap = none → GetLevel s = DEBUG) := by
  constructor
  · intro l h
    rcases h with h | h | h | h <;> subst h <;> decide
  · intro s h
    rw [GetLevel, h]
    rfl

/-- C8 witness: the amended totality facts at the concrete level WARN and
the concrete unrecognized name. -/
theorem level_total_amended_witness :
    (levelString WARN).isSome = true ∧ GetLevel "trace" = DEBUG :=
  ⟨level_total_amended.1 WARN (Or.inr (Or.inr (Or.inl rfl))),
    level_total_amended.2 "trace" (by decide)⟩

/-- C9.  The guard of the default-logger fallback compares the address of
the logger parameter with nil; taking the address of a parameter never
yields nil, so for every call the middleware uses the caller-supplied
logger and the fallback branch never runs. -/
theorem default_logger_branch_unreachable (logger : Logger)
    (options : MiddlewareOptions) :
    NewMiddlewareWithOptionsChoice logger options = (logger, false)
    ∧ addrOf 0 ≠ GoPtr.null := by
  constructor
  · rw [NewMiddlewareWithOptionsChoice, if_neg (by decide)]
  · decide

/-- C3.  For a request whose body is a healthy stream over some bytes,
logRequest reads exactly those bytes for logging and leaves the request
body as a stream over the same bytes, so the downstream handler sees the
body unconsumed. -/
theorem logRequest_body_preserved (d : List Nat) :
    logRequestCapture (GoBody.stream d) = (GoBody.stream d, some d) := by
  simp [logRequestCapture, readAll]

/-- C6 counterexample.  The accessors type-assert the bound value, so a
context binding a non-string under the request-identifier key, or a
non-Logger under the logger key, makes the lookup panic (modelled by the
error result): the lookups are not total over all contexts. -/
theorem context_lookup_counterexample :
    GetRequestID [(ContextKeyRequestID, CtxVal.other)] = Except.error ()
    ∧ GetLogger [(ContextKeyLogger, CtxVal.other)] = Except.error () := by
  constructor <;> rfl

/-- C6 (amended).  On every context whose bindings at the two recognized
keys are well typed, the lookups are total: GetRequestID yields the bound
string or the Unknown sentinel, and GetLogger yields the bound logger or a
fresh default logger at INFO on standard output; a mis-typed binding makes
the corresponding accessor panic. -/
theorem context_lookup_amended (ctx : GoContext) (s : String) (lg : Logger) :
    (ctxValue ctx ContextKeyRequestID = none →
      GetRequestID ctx = Except.ok "Unknown")
    ∧ (ctxValue ctx ContextKeyRequestID = some (CtxVal.str s) →
      GetRequestID ctx = Except.ok s)
    ∧ (ctxValue ctx ContextKeyLogger = none →
      GetLogger ctx = Except.ok (New INFO GoWriter.stdout))
    ∧ (ctxValue ctx ContextKeyLogger = some (CtxVal.logger lg) →
      GetLogger ctx = Except.ok lg) := by
  refine ⟨fun h => ?_, fun h => ?_, fun h => ?_, fun h => ?_⟩ <;>
    simp [GetRequestID, GetLogger, h]

/-- C6 witness: the amended lookup facts at concrete contexts, one per
branch. -/
theorem context_lookup_amended_witness :
    GetRequestID [] = Except.ok "Unknown"
    ∧ GetRequestID [(ContextKeyRequestID, CtxVal.str "id1")]
        = Except.ok "id1"
    ∧ GetLogger [] = Except.ok (New INFO GoWriter.stdout)
    ∧ GetLogger (WithLogger [] (New DEBUG GoWriter.stdout))
        = Except.ok (New DEBUG GoWriter.stdout) :=
  ⟨(context_lookup_amended [] "" (New INFO GoWriter.stdout)).1 rfl,
    (context_lookup_amended [(ContextKeyRequestID, CtxVal.str "id1")] "id1"
      (New INFO GoWriter.stdout)).2.1 rfl,
    (context_lookup_amended [] "" (New INFO GoWriter.stdout)).2.2.1 rfl,
    (context_lookup_amended (WithLogger [] (New DEBUG GoWriter.stdout)) ""
      (New DEBUG GoWriter.stdout)).2.2.2 rfl⟩

/-- C2.  Under Go defer semantics, the response-logging step appears in the
trace of a request exactly once when the option is on and never when it is
off, whether or not the downstream handler panics; when it appears, it
comes after the call into the downstream handler. -/
theorem logResponse_exactly_once (o p : Bool) :
    (middlewareTrace o p).count Ev.logResponse = (if o then 1 else 0)
    ∧ (o = true →
      firstIdx (middlewareTrace o p) Ev.serve
        < firstIdx (middlewareTrace o p) Ev.logResponse) := by
  cases o <;> cases p <;> exact ⟨by decide, by decide⟩

/-- C2 witness: the exactly-once facts on the concrete trace in which the
option is on and the handler panics. -/
theorem logResponse_exactly_once_witness :
    (middlewareTrace true true).count Ev.logResponse = 1
    ∧ firstIdx (middlewareTrace true true) Ev.serve
        < firstIdx (middlewareTrace true true) Ev.logResponse :=
  ⟨(logResponse_exactly_once true true).1,
    (logResponse_exactly_once true true).2 rfl⟩

/-- C4.  Recorder capture state over every call sequence on a fresh
recorder: with no WriteHeader call the status captured after a Write is the
OK status; a WriteHeader with some code directly followed by a Write leaves
that code captured; and the captured body is exactly the payload of the
most recent Write, earlier payloads replaced. -/
theorem recorder_capture_state (ops : List RecOp) (b : List Nat) (c : Int) :
    (allWrites ops = true →
      (runOps NewResponseWriterRecorder (ops ++ [RecOp.write b])).status
        = 200)
    ∧ (runOps NewResponseWriterRecorder
        (ops ++ [RecOp.writeHeader c, RecOp.write b])).status = c
    ∧ (runOps NewResponseWriterRecorder (ops ++ [RecOp.write b])).body
        = some b := by
  refine ⟨?_, ?_, ?_⟩
  · intro h
    rw [runOps_append]
    have h200 : (runOps NewResponseWriterRecorder ops).status = 200 :=
      status_after_writes ops h _ rfl
    have hone : runOps (runOps NewResponseWriterRecorder ops)
        [RecOp.write b]
        = (runOps NewResponseWriterRecorder ops).Write b := rfl
    rw [hone, write_status, h200]
    simp
  · rw [runOps_append]
    have htwo : runOps (runOps NewResponseWriterRecorder ops)
        [RecOp.writeHeader c, RecOp.write b]
        = ((runOps NewResponseWriterRecorder ops).WriteHeader c).Write b :=
      rfl
    rw [htwo, write_status]
    simp [ResponseWriterRecorder.WriteHeader]
  · rw [runOps_append]
    have hone : runOps (runOps NewResponseWriterRecorder ops)
        [RecOp.write b]
        = (runOps NewResponseWriterRecorder ops).Write b := rfl
    rw [hone, write_body]

/-- C4 witness: the capture facts at a concrete call sequence with two
writes and a header write. -/
theorem recorder_capture_state_witness :
    (runOps NewResponseWriterRecorder
      ([RecOp.write [1]] ++ [RecOp.write [2, 3]])).status = 200
    ∧ (runOps NewResponseWriterRecorder
        ([RecOp.write [1]] ++ [RecOp.writeHeader 404, RecOp.write [2, 3]])).status
        = 404
    ∧ (runOps NewResponseWriterRecorder
        ([RecOp.write [1]] ++ [RecOp.write [2, 3]])).body = some [2, 3] :=
  ⟨(recorder_capture_state [RecOp.write [1]] [2, 3] 404).1 (by decide),
    (recorder_capture_state [RecOp.write [1]] [2, 3] 404).2.1,
    (recorder_capture_state [RecOp.write [1]] [2, 3] 404).2.2⟩

/-- C1 counterexample.  Chaining two WithFields calls on a logger that
already holds a field keeps that field, and a mapping holding the error key
also synthesizes a stack-trace entry, so the resulting field set differs
from the plain merge of the two mappings at two keys. -/
theorem withFields_chain_counterexample :
    lookupField ((((New INFO GoWriter.stdout).WithFields
        [("x", GoValue.int 1)]).WithFields
        [(ErrorKey, GoValue.str "boom")]).WithFields []).fields "x"
      = some (GoValue.int 1)
    ∧ lookupField (mergeFields [(ErrorKey, GoValue.str "boom")] []) "x"
      = none
    ∧ lookupField ((((New INFO GoWriter.stdout).WithFields
        [("x", GoValue.int 1)]).WithFields
        [(ErrorKey, GoValue.str "boom")]).WithFields []).fields
        StacktraceKey
      = some (GoValue.str "boom")
    ∧ lookupField (mergeFields [(ErrorKey, GoValue.str "boom")] [])
        StacktraceKey
      = none := by
  decide

/-- C1 (amended).  Chaining WithFields over two mappings yields a logger
whose field set at every key is layered: the error-enriched second mapping
wins, then the error-enriched first mapping, then the receiver's own
fields, where enrichment adds the stack-trace entry to a mapping holding
the error key; the receiver's own field map is left unchanged by the call,
and neither call writes a log entry. -/
theorem withFields_chain_amended (l : Logger) (f1 f2 : FieldMap)
    (key : String) (h1 : (fieldKeys f1).Nodup) (h2 : (fieldKeys f2).Nodup) :
    lookupField ((l.WithFields f1).WithFields f2).fields key
      = firstSome (lookupField (enrichErrorField f2) key)
          (firstSome (lookupField (enrichErrorField f1) key)
            (lookupField l.fields key))
    ∧ (withFieldsCall l f1).receiverFieldsAfter = l.fields
    ∧ (withFieldsCall l f1).emitted = []
    ∧ (withFieldsCall (l.WithFields f1) f2).emitted = [] := by
  refine ⟨?_, rfl, rfl, rfl⟩
  rw [withFields_fields, withFields_fields,
    lookupField_mergeFields (enrichErrorField f2)
      (nodup_enrichErrorField f2 h2),
    lookupField_mergeFields (enrichErrorField f1)
      (nodup_enrichErrorField f1 h1)]

/-- C1 witness: the amended layering at concrete mappings sharing a key. -/
theorem withFields_chain_amended_witness :
    lookupField (((New INFO GoWriter.stdout).WithFields
        [("a", GoValue.int 1)]).WithFields
        [("a", GoValue.int 2), ("b", GoValue.int 3)]).fields "a"
      = firstSome
          (lookupField
            (enrichErrorField [("a", GoValue.int 2), ("b", GoValue.int 3)])
            "a")
          (firstSome
            (lookupField (enrichErrorField [("a", GoValue.int 1)]) "a")
            (lookupField (New INFO GoWriter.stdout).fields "a")) :=
  (withFields_chain_amended (New INFO GoWriter.stdout)
    [("a", GoValue.int 1)] [("a", GoValue.int 2), ("b", GoValue.int 3)]
    "a" (by decide) (by decide)).1

/-- C5 counterexample.  A mapping holding the error key synthesizes the
entry under the snake-case stack-trace key, not a camel-case one, and the
synthesized value is the plus-v rendering of the error value, which is
empty when that rendering is empty. -/
theorem error_field_stacktrace_counterexample :
    lookupField ((New INFO GoWriter.stdout).WithFields
        [(ErrorKey, GoValue.str "")]).fields "stackTrace" = none
    ∧ lookupField ((New INFO GoWriter.stdout).WithFields
        [(ErrorKey, GoValue.str "")]).fields StacktraceKey
      = some (GoValue.str "")
    ∧ formatPlusV (GoValue.str "") = "" := by
  decide

/-- C5 (amended).  For every logger and every mapping holding the error
key, the logger WithFields returns carries, under the snake-case
stack-trace key, the plus-v rendering of the error value, computed at the
time of the call; the rendering can be empty. -/
theorem error_field_stacktrace_amended (l : Logger) (f : FieldMap)
    (v : GoValue) (hn : (fieldKeys f).Nodup)
    (h : lookupField f ErrorKey = some v) :
    lookupField ((l.WithFields f).fields) StacktraceKey
      = some (GoValue.str (formatPlusV v)) := by
  have he : enrichErrorField f
      = setField f StacktraceKey (GoValue.str (formatPlusV v)) := by
    simp [enrichErrorField, h]
  rw [withFields_fields,
    lookupField_mergeFields (enrichErrorField f)
      (nodup_enrichErrorField f hn),
    he, lookupField_setField]
  simp [firstSome]

/-- C5 witness: the amended synthesis at a concrete error value. -/
theorem error_field_stacktrace_amended_witness :
    lookupField ((New INFO GoWriter.stdout).WithFields
        [(ErrorKey, GoValue.err "boom")]).fields StacktraceKey
      = some (GoValue.str (formatPlusV (GoValue.err "boom"))) :=
  error_field_stacktrace_amended (New INFO GoWriter.stdout)
    [(ErrorKey, GoValue.err "boom")] (GoValue.err "boom")
    (by decide) (by decide)

/-- C10.  WithFields writes through its argument: when the mapping holds
the error key, the caller's own map after the call is the original mapping
with the stack-trace entry written into it, so it carries the stack-trace
key, and when the mapping did not hold that key already, it has gained one
entry. -/
theorem withFields_mutates_argument (l : Logger) (f : FieldMap)
    (v : GoValue) (h : lookupField f ErrorKey = some v) :
    (withFieldsCall l f).argAfter
        = setField f StacktraceKey (GoValue.str (formatPlusV v))
    ∧ lookupField (withFieldsCall l f).argAfter StacktraceKey
        = some (GoValue.str (formatPlusV v))
    ∧ (lookupField f StacktraceKey = none →
      ((withFieldsCall l f).argAfter).length = f.length + 1) := by
  have harg : (withFieldsCall l f).argAfter
      = setField f StacktraceKey (GoValue.str (formatPlusV v)) := by
    simp [withFieldsCall, enrichErrorField, h]
  refine ⟨harg, ?_, ?_⟩
  · rw [harg, lookupField_setField]
    simp
  · intro hnone
    rw [harg, setField_length_of_none f _ _ hnone]

/-- C10 witness: the mutation facts at a concrete mapping holding only the
error key. -/
theorem withFields_mutates_argument_witness :
    (withFieldsCall (New INFO GoWriter.stdout)
        [(ErrorKey, GoValue.str "oops")]).argAfter
      = setField [(ErrorKey, GoValue.str "oops")] StacktraceKey
          (GoValue.str (formatPlusV (GoValue.str "oops")))
    ∧ lookupField (withFieldsCall (New INFO GoWriter.stdout)
        [(ErrorKey, GoValue.str "oops")]).argAfter StacktraceKey
      = some (GoValue.str (formatPlusV (GoValue.str "oops")))
    ∧ ((withFieldsCall (New INFO GoWriter.stdout)
        [(ErrorKey, GoValue.str "oops")]).argAfter).length
      = ([(ErrorKey, GoValue.str "oops")] : FieldMap).length + 1 := by
  have base := withFields_mutates_argument (New INFO GoWriter.stdout)
    [(ErrorKey, GoValue.str "oops")] (GoValue.str "oops") (by decide)
  exact ⟨base.1, base.2.1, base.2.2 (by decide)⟩
